import Mathlib

/-!
Verification of the spark-coach orchestration engine (`coach.py`, `service.py`):
the budget ledger, the opportunity scorer and shortlist, the session-engine
action-card stages, the metrics sampler, the reinforcement store and the
fixed-tick scheduler.  Python floats on money/weights are modelled as exact
rationals `ℚ`; wall-clock timestamps are modelled as rational minute counts;
the real-valued score formula is modelled over `ℝ`.
-/

namespace SparkCoach

/-- The persisted budget/state file `data/state.json` as read by
`_load_budget_state` (coach.py).  The JSON object is modelled as a record:
`date = none` models an absent `"date"` key (an empty or fresh file);
`themes = none` models an absent `"themes"` key; `extra` carries any other
keys (as name/value pairs) the file may hold.  When the `"date"` key is
absent the `spend`/`drafts` fields are unread placeholders (the source only
reads them after establishing `date == today`, which makes them present). -/
structure BudgetState where
  date : Option String
  spend : ℚ
  drafts : ℕ
  themes : Option (List (String × ℤ))
  extra : List (String × String)
deriving DecidableEq, Repr

/-- The state `{date: today, spend: 0, drafts: 0}` installed by the
rollover branch of `_budget_allow`. -/
def freshBudget (today : String) : BudgetState :=
  { date := some today, spend := 0, drafts := 0, themes := none, extra := [] }

/-- coach.py `_budget_allow` (lines 1057-1069): on a stored date different
from today the whole dict is replaced by `{date, spend: 0, drafts: 0}`;
then check-and-increment against the cap.  Returns the boolean result
together with the state persisted by `_save_budget_state` (the source
persists in both branches). -/
def _budget_allow (budget : ℚ) (today : String) (cost : ℚ) (s0 : BudgetState) :
    Bool × BudgetState :=
  let s := if s0.date = some today then s0 else freshBudget today
  if budget < s.spend + cost then (false, s)
  else (true, { s with spend := s.spend + cost, drafts := s.drafts + 1 })

/-- A sequence of same-day `_budget_allow` calls, returning the list of
results and the final persisted state. -/
def runAllow (budget : ℚ) (today : String) : BudgetState → List ℚ → List Bool × BudgetState
  | s, [] => ([], s)
  | s, c :: cs =>
    ((_budget_allow budget today c s).1
        :: (runAllow budget today (_budget_allow budget today c s).2 cs).1,
     (runAllow budget today (_budget_allow budget today c s).2 cs).2)

/-- Total of the costs whose paired call result is `true` (the cumulative
accepted spend of a call sequence). -/
def acceptedSum : List ℚ → List Bool → ℚ
  | c :: cs, r :: rs => (if r then c else 0) + acceptedSum cs rs
  | _, _ => 0

/-- The set of keys the persisted JSON object would carry, in the record
model of `BudgetState`. -/
def stateKeys (s : BudgetState) : List String :=
  (if s.date.isSome then ["date", "spend", "drafts"] else [])
    ++ (if s.themes.isSome then ["themes"] else [])
    ++ s.extra.map Prod.fst

/-- Default theme weights used by `_pick_theme` and
`_update_theme_weights_from_metrics` when the state has no `"themes"` key. -/
def defaultThemes : List (String × ℤ) :=
  [("metrics", 1), ("build_in_public", 1), ("positioning", 1), ("technical", 1), ("hot_take", 1)]

/-- Python `max(pairs, key=value)` over a non-empty association list:
the first key attaining the maximal value (strict `<` keeps the earlier
entry, as Python's `max` does). -/
def argmaxPair {β : Type} [LinearOrder β] (dflt : String) : List (String × β) → String
  | [] => dflt
  | p :: rest => (rest.foldl (fun best q => if best.2 < q.2 then q else best) p).1

/-- coach.py `_pick_theme` (lines 455-476).  The `random.random() < 0.25`
draw and the uniform `random.choice` are modelled by the inputs `explore`
and `pickIdx`.  Returns the chosen theme and the state written back by
`_save_budget_state` (the source always writes `s["themes"] = themes`). -/
def _pick_theme (s : BudgetState) (explore : Bool) (pickIdx : ℕ) : String × BudgetState :=
  let themes := s.themes.getD defaultThemes
  let theme := if explore then (themes.map Prod.fst).getD (pickIdx % themes.length) "metrics"
               else argmaxPair "metrics" themes
  (theme, { s with themes := some themes })

/-- Text features logged with a publish event (`_text_features` plus the
derived flags the reinforcement code reads). -/
structure Feats where
  len : ℕ
  has_numbers : Bool
  asks_question : Bool
  emoji_count : ℕ
  lines : ℕ
deriving DecidableEq, Repr

/-- Add `amt` to the entry of `key` in a score map (Python
`scores[key] += amt`; the key is present on every reachable call since the
map is initialised from the theme keys, which include the three credited
themes by default). -/
def bumpScore (scores : List (String × ℚ)) (key : String) (amt : ℚ) : List (String × ℚ) :=
  scores.map fun p => if p.1 = key then (p.1, p.2 + amt) else p

/-- Python `themes[best] = v`: overwrite an existing key, or append the key
at the end (dict insertion order) when absent. -/
def setTheme (themes : List (String × ℤ)) (key : String) (v : ℤ) : List (String × ℤ) :=
  if (themes.lookup key).isSome then themes.map fun p => if p.1 = key then (p.1, v) else p
  else themes ++ [(key, v)]

/-- coach.py `_update_theme_weights_from_metrics` (lines 1263-1295), with
the 24h window of logged post events passed in as their feature records.
`int(x * 0.9)` truncates toward zero; under the outer `max 1` this agrees
with `max 1 ⌊x * 0.9⌋` for every integer weight, which is how it is
written here.  Returns the best theme and the written-back state. -/
def _update_theme_weights_from_metrics (s : BudgetState) (posts : List Feats) :
    String × BudgetState :=
  let themes := s.themes.getD defaultThemes
  let scores0 : List (String × ℚ) := themes.map fun p => (p.1, 0)
  let scores := posts.foldl (fun sc f =>
    if f.has_numbers then bumpScore sc "metrics" 1
    else if f.asks_question then bumpScore sc "positioning" (7/10)
    else bumpScore sc "build_in_public" (1/2)) scores0
  let best := if scores = [] then "metrics" else argmaxPair "metrics" scores
  let themes1 := setTheme themes best (min 5 (((themes.lookup best).getD 1) + 1))
  let themes2 := themes1.map fun p =>
    if p.1 = best then p else (p.1, max 1 ⌊(p.2 : ℚ) * (9/10)⌋)
  (best, { s with themes := some themes2 })

/-- One per-feature record from `data/learning.json`
(`{"picks": _, "successes": _, "weight": _}`). -/
structure FeatStat where
  picks : ℕ
  successes : ℕ
  weight : ℚ
deriving DecidableEq, Repr

/-- The default record `{"picks": 0, "successes": 0, "weight": 0.5}`
installed by `setdefault` in both updaters. -/
def initFeatStat : FeatStat := ⟨0, 0, 1/2⟩

/-- coach.py `track_user_choice` (lines 497-506), restricted to one
feature record: `d["picks"] += 1` and
`d["weight"] = min(0.95, weight * 0.99 + present * 0.01)`.
`present` is whether the chosen text exhibits the feature. -/
def trackChoiceUpdate (d : FeatStat) (present : Bool) : FeatStat :=
  { d with picks := d.picks + 1,
           weight := min (95/100) (d.weight * (99/100) + (if present then 1 else 0) * (1/100)) }

/-- coach.py `_update_learning_success_from_snapshot` (lines 1535-1545),
restricted to one feature record: `d["successes"] += 1` and
`d["weight"] = min(0.95, max(0.05, successes / max(1, picks)))`. -/
def successSnapshotUpdate (d : FeatStat) : FeatStat :=
  { d with successes := d.successes + 1,
           weight := min (95/100) (max (5/100) (((d.successes : ℚ) + 1) / (max 1 (d.picks : ℚ)))) }

/-- A feature-weight update of either kind, as performed by the two
reinforcement entry points. -/
inductive LearnOp
  | track (present : Bool)
  | success
deriving DecidableEq, Repr

/-- Run a sequence of feature-weight updates on one feature record. -/
def runLearnOps : FeatStat → List LearnOp → FeatStat
  | d, [] => d
  | d, .track b :: rest => runLearnOps (trackChoiceUpdate d b) rest
  | d, .success :: rest => runLearnOps (successSnapshotUpdate d) rest

/-- A Python string of operator-authored text, modelled as its character
list so that the source's string algorithms stay executable. -/
abbrev Text := List Char

/-- Python `str.strip()`: drop whitespace from both ends. -/
def pyStrip (s : Text) : Text :=
  ((s.dropWhile Char.isWhitespace).reverse.dropWhile Char.isWhitespace).reverse

/-- Python `str.lower()` (ASCII case fold, which is all the source needs
for the literal `"edit:"`). -/
def pyLower (s : Text) : Text := s.map Char.toLower

/-- Python `str.startswith(p)`. -/
def pyStartsWith (p s : Text) : Bool := p.isPrefixOf s

/-- Python `t.split(":", 1)[1]`: everything after the first colon.  The
source only evaluates this under a `startswith("edit:")` guard, so a colon
is always present; absent one this total model returns `[]`. -/
def pySplitTailAfterColon : Text → Text
  | [] => []
  | c :: rest => if c = ':' then rest else pySplitTailAfterColon rest

-- ---- Scorer (coach.py `_score_opportunity`, `_fetch_opportunities`) ----

/-- coach.py `_score_opportunity` (lines 918-926).  `likes`, `rts`
(= retweet_count + repost_count) and `replies` are the non-negative counts
read from `public_metrics`; `minutes_ago` is the age.  The Python float
arithmetic (`base**0.5`, `* 0.2`) is modelled exactly over `ℝ`; `int(x)`
truncates toward zero, which on this always-non-negative argument equals
`Int.floor`. -/
noncomputable def _score_opportunity (tier : ℕ) (likes rts replies : ℕ)
    (minutes_ago : ℝ) : ℤ :=
  let base : ℕ := likes * 1 + rts * 2 + replies * 3
  let recency : ℝ := max 0 (120 - minutes_ago)
  let tier_boost : ℝ := if tier = 1 then 50 else if tier = 2 then 20 else 0
  ⌊min 100 (Real.sqrt base + recency * 0.2 + tier_boost)⌋

/-- One scored candidate as assembled by `_fetch_opportunities`: its
creator tier, its integer score, and the tweet id identifying it. -/
structure Cand where
  tier : ℕ
  score : ℤ
  tid : String
deriving DecidableEq, Repr

/-- Descending-score order used by `shortlist.sort(key=score, reverse=True)`. -/
def byScoreDesc (a b : Cand) : Prop := b.score ≤ a.score

instance : DecidableRel byScoreDesc :=
  fun a b => inferInstanceAs (Decidable (b.score ≤ a.score))

instance : IsTotal Cand byScoreDesc := ⟨fun a b => le_total b.score a.score⟩

instance : IsTrans Cand byScoreDesc := ⟨fun _ _ _ h1 h2 => le_trans h2 h1⟩

/-- The filtered merge of coach.py `_fetch_opportunities` lines 988-990:
all tier-1 candidates, then tier-2 with score ≥ 80, then tier-3 with
score ≥ 90, in input order. -/
def shortlistMerged (opps : List Cand) : List Cand :=
  (opps.filter fun o => o.tier == 1)
    ++ (opps.filter fun o => o.tier == 2 && decide (80 ≤ o.score))
    ++ (opps.filter fun o => o.tier == 3 && decide (90 ≤ o.score))

/-- coach.py `_fetch_opportunities` lines 988-994: merge, stable sort
descending by score (Python `list.sort` is stable, as is insertion sort),
cap at 15.  The source then writes rank `i` into the `idx` field of the
`i`-th survivor, which `shortlistRanked` models. -/
def _fetch_shortlist (opps : List Cand) : List Cand :=
  ((shortlistMerged opps).insertionSort byScoreDesc).take 15

/-- The capped, sorted shortlist paired with its dense 1-based rank
indices (`for i, o in enumerate(shortlist[:15], start=1): o.idx = i`). -/
def shortlistRanked (opps : List Cand) : List (ℕ × Cand) :=
  (_fetch_shortlist opps).enum.map fun p => (p.1 + 1, p.2)

-- ---- MetricsSampler (coach.py `_background_metrics_fetch`) ----

/-- One line of the `data/log.jsonl` publish log, restricted to the fields
the sampler reads.  `tweet_id = none` models a missing or falsy id;
`ts` is the publish instant as minutes on a rational timeline
(`none` models a missing timestamp). -/
structure LogEv where
  type : String
  tweet_id : Option String
  ts : Option ℚ
deriving DecidableEq, Repr

/-- One appended line of `data/metrics.jsonl`. -/
structure Snapshot where
  tweet_id : String
  age_label : String
  metrics : List (String × ℤ)
deriving DecidableEq, Repr

/-- The four capture offsets of `_background_metrics_fetch`. -/
def sampleIntervals : List (ℚ × String) :=
  [(30, "30m"), (120, "2h"), (360, "6h"), (1440, "24h")]

/-- The snapshots one iteration of the `for line in f` loop of
`_background_metrics_fetch` appends for one log event: nothing unless
the event is a post with a tweet id and a timestamp (`continue`);
otherwise, for each of the four offsets within whose 5-minute window the
post's age falls, one snapshot per successful non-empty fetch. -/
def snapshotsForEvent (now : ℚ) (fetch : String → Option (List (String × ℤ)))
    (ev : LogEv) : List Snapshot :=
  if ev.type == "post" then
    match ev.tweet_id, ev.ts with
    | some tid, some posted =>
      let age := now - posted
      sampleIntervals.filterMap fun ti =>
        if |age - ti.1| < 5 then (fetch tid).map fun m => ⟨tid, ti.2, m⟩ else none
    | _, _ => []
  else []

/-- coach.py `_background_metrics_fetch` (lines 297-328).  `now` is the
current instant in minutes; `fetch` models `_fetch_tweet_metrics`, with
`none` for a failed call or empty metrics (both falsy, both skipped).
Returns the list of snapshots appended to `data/metrics.jsonl`, in order
(the per-event work is `snapshotsForEvent`).  The function never reads
the existing metrics log. -/
def _background_metrics_fetch (now : ℚ) (log : List LogEv)
    (fetch : String → Option (List (String × ℤ))) : List Snapshot :=
  log.foldl (fun acc ev => acc ++ snapshotsForEvent now fetch ev) []

-- ---- Scheduler (service.py `should_run_task`, `main_loop`) ----

/-- service.py `should_run_task` (lines 49-67). -/
def should_run_task (task : String) (hour minute dow : ℕ) : Bool :=
  if task == "suggest" then hour == 7 && minute == 30
  else if task == "afternoon" then hour == 13 && minute == 0
  else if task == "summary" then hour == 18 && minute == 0
  else if task == "weekly" then dow == 6 && hour == 19 && minute == 0
  else if task == "scan" then (hour == 9 || hour == 12 || hour == 15) && minute == 0
  else if task == "metrics" then minute % 30 == 0
  else false

/-- The task table of service.py `main_loop` (in iteration order). -/
def scheduledTasks : List String :=
  ["suggest", "afternoon", "summary", "weekly", "scan", "metrics"]

/-- One wall-clock instant as the scheduler reads it: the fields feeding
`should_run_task` plus the minute bucket `now.replace(second=0,
microsecond=0)`, abstracted to an absolute minute index (two instants in
the same calendar minute share all four fields). -/
structure Clock where
  hour : ℕ
  minute : ℕ
  dow : ℕ
  bucket : ℕ
deriving DecidableEq, Repr

/-- The per-task body of the `for task_name, task_func in tasks.items()`
loop of service.py `main_loop` (lines 100-109): if the task is due and
its `last_run` bucket differs from the current minute, record the bucket
and dispatch; otherwise leave the state alone. -/
def tickTask (clk : Clock) (acc : (String → Option ℕ) × List String) (t : String) :
    (String → Option ℕ) × List String :=
  if should_run_task t clk.hour clk.minute clk.dow then
    if acc.1 t ≠ some clk.bucket then
      (Function.update acc.1 t (some clk.bucket), acc.2 ++ [t])
    else acc
  else acc

/-- One whole scheduler tick over the task table: the updated `last_run`
map paired with the tasks dispatched this tick, in order. -/
def tickOnce (clk : Clock) (lastRun : String → Option ℕ) :
    (String → Option ℕ) × List String :=
  scheduledTasks.foldl (tickTask clk) (lastRun, [])

/-- `n` consecutive scheduler ticks observed at the same wall-clock
minute, with all dispatched tasks accumulated in order. -/
def tickN (clk : Clock) : ℕ → (String → Option ℕ) → (String → Option ℕ) × List String
  | 0, lr => (lr, [])
  | n + 1, lr =>
    let r1 := tickOnce clk lr
    let r2 := tickN clk n r1.1
    (r2.1, r1.2 ++ r2.2)

-- ---- SessionEngine (coach.py wait loop, morning session, scan) ----

/-- A Slack parent message as `slack_get_message` returns it: its
reaction names with counts (`{rv["name"]: rv["count"]}`; Slack reaction
names are unique per message). -/
structure Msg where
  reactions : List (String × ℕ)
deriving DecidableEq, Repr

/-- coach.py `_reaction_selected` (lines 591-593). -/
def _reaction_selected (msg : Msg) (names : List String) : Bool :=
  names.any fun n => 0 < ((msg.reactions.lookup n).getD 0)

/-- The poll loop of `_wait_for_user_response` (lines 596-608): `obs k`
is what `slack_get_message` returns on the `k`-th poll (`none` models a
missing message), `fuel` the number of polls remaining before the
timeout.  Python iterates over `expected.items()` in insertion order,
hence the association list. -/
def waitPoll (expected : List (String × List String)) (obs : ℕ → Option Msg) :
    ℕ → ℕ → Option String
  | _, 0 => none
  | k, fuel + 1 =>
    let hit : Option String :=
      match obs k with
      | some parent => (expected.find? fun kv => _reaction_selected parent kv.2).map Prod.fst
      | none => none
    match hit with
    | some key => some key
    | none => waitPoll expected obs (k + 1) fuel

/-- The 1800 s timeout at one 5 s sleep per iteration: 360 polls. -/
def pollBudget : ℕ := 360

/-- coach.py `_wait_for_user_response` with its default 1800 s timeout:
returns the first expected key whose reactions are observed, or `none`
on timeout. -/
def _wait_for_user_response (expected : List (String × List String))
    (obs : ℕ → Option Msg) : Option String :=
  waitPoll expected obs 0 pollBudget

/-- Observable side effects of one morning-session / opportunity-scan
workflow instance: calls into the generation backend, the budget gate,
the X publishing client, and Slack message posts (identified by a short
tag; exact message wording is irrelevant to the claims). -/
inductive Ev
  | genSuggestions
  | genReply (source : Text) (user : String)
  | budgetCheck (ok : Bool)
  | postX (text : Text)
  | replyX (tweetId : String) (text : Text)
  | slackMsg (tag : String)
deriving DecidableEq, Repr

def isGen : Ev → Bool
  | .genSuggestions => true
  | .genReply _ _ => true
  | _ => false

def isBudgetCheck : Ev → Bool
  | .budgetCheck _ => true
  | _ => false

def isPublish : Ev → Bool
  | .postX _ => true
  | .replyX _ _ => true
  | _ => false

/-- The texts published through `reply_to_tweet` in a trace, in order. -/
def publishedReplyTexts (tr : List Ev) : List Text :=
  tr.filterMap fun e => match e with | .replyX _ t => some t | _ => none

/-- The texts published through `post_to_x` in a trace, in order. -/
def publishedPostTexts (tr : List Ev) : List Text :=
  tr.filterMap fun e => match e with | .postX t => some t | _ => none

/-- Every generation event is immediately preceded by a successful budget
check (`prev` is the event before the current suffix). -/
def gatedFrom (prev : Option Ev) : List Ev → Bool
  | [] => true
  | e :: rest => (!(isGen e) || (prev == some (Ev.budgetCheck true))) && gatedFrom (some e) rest

/-- The whole trace, starting with no predecessor. -/
def genImmediatelyGated (tr : List Ev) : Bool := gatedFrom none tr

/-- After any failed budget check, no further generation event occurs. -/
def noGenAfterFalse : List Ev → Bool
  | [] => true
  | e :: rest =>
    (if e == Ev.budgetCheck false then rest.all fun x => !(isGen x) else true)
      && noGenAfterFalse rest

/-- Every failed budget check is immediately followed by the
budget-exhausted Slack message. -/
def falseThenMsg : List Ev → Bool
  | [] => true
  | e :: rest =>
    (if e == Ev.budgetCheck false then rest.head? == some (Ev.slackMsg "budget paused")
     else true) && falseThenMsg rest

/-- The event preceding a list's continuation: its last element, or the
given predecessor when it is empty (used to split `gatedFrom` across an
append). -/
def lastOr (prev : Option Ev) (xs : List Ev) : Option Ev :=
  xs.foldl (fun _ e => some e) prev

/-- The expected-signal table of the morning tweet confirm card
(coach.py line 696). -/
def confirmExpected : List (String × List String) :=
  [("yes", ["+1", "thumbsup"]), ("no", ["thumbsdown"])]

/-- The expected-signal table of the three-option pick card (line 716). -/
def optionExpected : List (String × List String) :=
  [("1", ["one", "keycap_1"]), ("2", ["two", "keycap_2"]), ("3", ["three", "keycap_3"])]

/-- The expected-signal table of the reply confirm card (line 739). -/
def replyCardExpected : List (String × List String) :=
  [("yes", ["+1", "thumbsup"]), ("no", ["thumbsdown"]), ("next", ["next_track_button"])]

/-- The expected-signal table of the draft card (lines 763-768). -/
def draftExpected : List (String × List String) :=
  [("post", ["white_check_mark", "heavy_check_mark"]), ("edit", ["pencil2"]),
   ("regen", ["arrows_counterclockwise"]), ("skip", ["thumbsdown"])]

/-- The `edits[::-1]` scan of coach.py lines 771-779: walk the thread
replies newest-first, return the payload after the first colon of the
first (i.e. most recent) reply whose stripped, lowered text starts with
`"edit:"`; `none` when no reply matches (the draft is then left
unchanged). -/
def editFromReplies (replies : List Text) : Option Text :=
  (replies.reverse.find? fun r => pyStartsWith "edit:".data (pyLower (pyStrip r))).map
    fun t => pyStrip (pySplitTailAfterColon (pyStrip t))

/-- Environment of one `action["type"] == "tweet"` stage of
`run_morning_session`: the reaction streams of its two cards and the
tweet options extracted from the generated suggestions
(`_extract_tweets_from_suggestions(...)[:3]`). -/
structure TweetActionEnv where
  confirmObs : ℕ → Option Msg
  optObs : ℕ → Option Msg
  tweetOptions : List Text

/-- The `while len(tweets) < 3: tweets.append("[placeholder tweet]")`
padding. -/
def padTweets (ts : List Text) : List Text :=
  ts ++ List.replicate (3 - ts.length) "[placeholder tweet]".data

/-- coach.py `run_morning_session`, tweet branch (lines 678-727): confirm
card, on "yes" generate suggestions, post the three options, and publish
the picked option.  The `track_user_choice` bookkeeping and the
non-fatal `slack_add_reaction` calls are invisible to the modelled event
alphabet. -/
def runTweetAction (env : TweetActionEnv) : List Ev :=
  let card := [Ev.slackMsg "tweet card"]
  let resp := _wait_for_user_response confirmExpected env.confirmObs
  if resp = some "yes" then
    let tweets := padTweets (env.tweetOptions.take 3)
    let evs := card ++ [Ev.genSuggestions, Ev.slackMsg "options"]
    match _wait_for_user_response optionExpected env.optObs with
    | some r =>
      if r = "1" ∨ r = "2" ∨ r = "3" then
        let choice := if r = "1" then 1 else if r = "2" then 2 else 3
        let text := tweets.getD (choice - 1) []
        evs ++ [Ev.postX text, Ev.slackMsg "posted tweet"]
      else evs
    | none => evs
  else card

/-- Environment of one `action["type"] == "reply"` stage of
`run_morning_session`: the target tweet, the reaction streams of its two
cards, whether the draft fetch/generation raises (`genFail`), the drafts
the backend returns, and the thread replies under the draft card
(oldest first, as `conversations_replies` returns them). -/
structure ReplyActionEnv where
  tweetId : String
  user : String
  sourceText : Text
  cardObs : ℕ → Option Msg
  draftObs : ℕ → Option Msg
  genFail : Bool
  draft1 : Text
  regenDraft : Text
  threadReplies : List Text

/-- coach.py `run_morning_session`, reply branch (lines 728-786): confirm
card, on "yes" generate one draft, then the four-way draft card; "edit"
replaces the draft from the thread scan and falls through to "post";
"regen" regenerates and falls through to "post"; "post" publishes the
current draft; "skip"/timeout publishes nothing. -/
def runReplyAction (env : ReplyActionEnv) : List Ev :=
  let card := [Ev.slackMsg "reply card"]
  let resp := _wait_for_user_response replyCardExpected env.cardObs
  if resp = some "yes" then
    if env.genFail then card ++ [Ev.slackMsg "failed to generate"]
    else
      let evs := card ++ [Ev.genReply env.sourceText env.user, Ev.slackMsg "draft"]
      let resp2 := _wait_for_user_response draftExpected env.draftObs
      let st1 : Text × List Ev × Option String :=
        if resp2 = some "edit" then
          ((editFromReplies env.threadReplies).getD env.draft1, evs, some "post")
        else (env.draft1, evs, resp2)
      let st2 : Text × List Ev × Option String :=
        if st1.2.2 = some "regen" then
          (env.regenDraft,
           st1.2.1 ++ [Ev.genReply env.sourceText env.user, Ev.slackMsg "regenerated"],
           some "post")
        else st1
      if st2.2.2 = some "post" then
        st2.2.1 ++ [Ev.replyX env.tweetId st2.1, Ev.slackMsg "posted reply"]
      else st2.2.1
  else card

/-- One morning-session action with its environment. -/
inductive ActionEnv
  | tweet (env : TweetActionEnv)
  | reply (env : ReplyActionEnv)

def runAction : ActionEnv → List Ev
  | .tweet e => runTweetAction e
  | .reply e => runReplyAction e

/-- coach.py `run_morning_session` (lines 665-788): coaching header, the
determined actions in sequence, completion message.  Nowhere does it
consult `_budget_allow`. -/
def runMorningSession (acts : List ActionEnv) : List Ev :=
  Ev.slackMsg "coaching header" :: ((acts.map runAction).flatten
    ++ [Ev.slackMsg "session complete"])

-- ---- Opportunity scan (coach.py `run_opportunity_scan`) ----

/-- One shortlisted opportunity as the scan's draft loop uses it. -/
structure Opp where
  idx : ℕ
  user : String
  summary : Text
  tweet_id : String
deriving DecidableEq, Repr

/-- `ESTIMATED_COST_PER_DRAFT_USD` default 0.04. -/
def costPerDraft : ℚ := 4/100

/-- The draft loop of `run_opportunity_scan` (lines 1100-1124): for each
selected index, look it up, gate on `_budget_allow(_COST_PER_DRAFT)`;
on failure post the budget-paused message and return (the third
component is `false` when that early return fired); on success fetch the
tweet text (falling back to the stored summary), generate one reply and
post it in the thread. -/
def scanDraftLoop (cap : ℚ) (today : String) (fetchText : String → Option Text)
    (byIdx : ℕ → Option Opp) : List ℕ → BudgetState → List Ev × BudgetState × Bool
  | [], s => ([], s, true)
  | idx :: rest, s =>
    match byIdx idx with
    | none => scanDraftLoop cap today fetchText byIdx rest s
    | some o =>
      let r := _budget_allow cap today costPerDraft s
      if r.1 then
        let src := (fetchText o.tweet_id).getD o.summary
        let t := scanDraftLoop cap today fetchText byIdx rest r.2
        (Ev.budgetCheck true :: Ev.genReply src o.user :: Ev.slackMsg "draft" :: t.1,
         t.2.1, t.2.2)
      else
        ([Ev.budgetCheck false, Ev.slackMsg "budget paused"], r.2, false)

/-- coach.py `run_opportunity_scan` (lines 1076-1232): post the shortlist,
read the selection from the thread (modelled as the parsed index list;
empty means no selection yet and the run stops), run the draft loop, and
— unless the loop returned early on budget exhaustion — process the
thread's reaction/typed publish commands, modelled as the resolved
(tweet id, text) publish intents of lines 1126-1232, which publish but
never generate. -/
def runOpportunityScan (cap : ℚ) (today : String) (fetchText : String → Option Text)
    (opps : List Opp) (selected : List ℕ) (s : BudgetState)
    (pubCmds : List (String × Text)) : List Ev × BudgetState :=
  if opps.isEmpty then ([], s)
  else
    let hdr := Ev.slackMsg "shortlist header" :: opps.map fun _ => Ev.slackMsg "shortlist line"
    if selected.isEmpty then (hdr, s)
    else
      let byIdx := fun i => (opps.reverse.find? fun o => o.idx == i)
      let t := scanDraftLoop cap today fetchText byIdx selected s
      (hdr ++ t.1 ++ (if t.2.2 then pubCmds.map fun c => Ev.replyX c.1 c.2 else []),
       t.2.1)

-- ---- Auxiliary predicates and concrete environments ----

/-- Sixteen tier-1 candidates with pairwise distinct scores 16..1. -/
def sixteenTierOne : List Cand :=
  [⟨1, 16, "p01"⟩, ⟨1, 15, "p02"⟩, ⟨1, 14, "p03"⟩, ⟨1, 13, "p04"⟩,
   ⟨1, 12, "p05"⟩, ⟨1, 11, "p06"⟩, ⟨1, 10, "p07"⟩, ⟨1, 9, "p08"⟩,
   ⟨1, 8, "p09"⟩, ⟨1, 7, "p10"⟩, ⟨1, 6, "p11"⟩, ⟨1, 5, "p12"⟩,
   ⟨1, 4, "p13"⟩, ⟨1, 3, "p14"⟩, ⟨1, 2, "p15"⟩, ⟨1, 1, "p16"⟩]

/-- The card's polled message never shows any of the declared signal
reactions: no expected key is ever selected before the timeout. -/
def NoSignal (obs : ℕ → Option Msg) (expected : List (String × List String)) : Prop :=
  ∀ k m, obs k = some m → ∀ kv ∈ expected, _reaction_selected m kv.2 = false

/-- Modelled from the spec's words, for comparison with the source's
`editFromReplies`: the spec says the *first* matching reply wins, i.e.
scan the thread replies oldest-first and take the first whose stripped,
lowered text starts with `"edit:"`. -/
def spec_editFromRepliesFirst (replies : List Text) : Option Text :=
  (replies.find? fun r => pyStartsWith "edit:".data (pyLower (pyStrip r))).map
    fun t => pyStrip (pySplitTailAfterColon (pyStrip t))

/-- A message stream that immediately shows the given reaction once. -/
def reactedMsg (name : String) : ℕ → Option Msg := fun _ => some ⟨[(name, 1)]⟩

/-- A message stream whose message never carries any reaction. -/
def silentMsg : ℕ → Option Msg := fun _ => some ⟨[]⟩

/-- Concrete tweet-stage environment: operator confirms with +1 and then
picks option 1. -/
def tweetEnvYes : TweetActionEnv :=
  { confirmObs := reactedMsg "+1", optObs := reactedMsg "one",
    tweetOptions := ["opt one".data, "opt two".data, "opt three".data] }

/-- Concrete reply-stage environment: operator confirms the card, then
signals "edit" on the draft card after posting two edit replies; the
older reply carries payload `A`, the newer one payload `B`. -/
def replyEnvEdit : ReplyActionEnv :=
  { tweetId := "555", user := "alice", sourceText := "src".data,
    cardObs := reactedMsg "+1", draftObs := reactedMsg "pencil2",
    genFail := false, draft1 := "orig draft".data, regenDraft := "regen draft".data,
    threadReplies := ["edit: A".data, "edit: B".data] }

/-- Concrete silent environments used to exercise the timeout branches. -/
def tweetEnvSilent : TweetActionEnv :=
  { confirmObs := silentMsg, optObs := silentMsg, tweetOptions := [] }

def replyEnvSilent : ReplyActionEnv :=
  { tweetId := "555", user := "alice", sourceText := "src".data,
    cardObs := silentMsg, draftObs := silentMsg,
    genFail := false, draft1 := "orig draft".data, regenDraft := "regen draft".data,
    threadReplies := [] }

end SparkCoach


-- ======================= Theorems =======================

namespace SparkCoach

-- ---- C10: rollover frame effect of the budget gate ----

/-- C10: when `_budget_allow` runs on a day whose date differs from the
stored state's date, the state it persists consists of exactly the keys
{date, spend, drafts} (in both the reject and the accept branch); the
theme preference-weight map — which `_pick_theme` reads and always
writes back into the same state file — and every other stored key are
discarded. -/
theorem budget_rollover_discards_other_keys (cap cost : ℚ) (today : String)
    (s : BudgetState) (h : s.date ≠ some today) :
    stateKeys (_budget_allow cap today cost s).2 = ["date", "spend", "drafts"] ∧
    ((_budget_allow cap today cost s).2).themes = none ∧
    ((_budget_allow cap today cost s).2).extra = [] ∧
    (∀ s1 explore i, ((_pick_theme s1 explore i).2).themes.isSome = true) := by
  have hpick : ∀ s1 explore i, ((_pick_theme s1 explore i).2).themes.isSome = true := by
    intro s1 explore i; simp [_pick_theme]
  simp only [_budget_allow, if_neg h]
  split
  · exact ⟨by simp [stateKeys, freshBudget], rfl, rfl, hpick⟩
  · exact ⟨by simp [stateKeys, freshBudget], rfl, rfl, hpick⟩

/-- Witness for C10 at a concrete state that carries a theme map and a
stray extra key, on a rolled-over date. -/
theorem budget_rollover_discards_other_keys_witness :
    (⟨some "2025-01-01", 1/10, 2, some [("metrics", 3)], [("foo", "bar")]⟩ : BudgetState).date
        ≠ some "2025-01-02" ∧
    stateKeys (_budget_allow 1 "2025-01-02" 0
      ⟨some "2025-01-01", 1/10, 2, some [("metrics", 3)], [("foo", "bar")]⟩).2
      = ["date", "spend", "drafts"] :=
  ⟨by simp,
   (budget_rollover_discards_other_keys 1 0 "2025-01-02" _ (by simp)).1⟩

-- ---- C7: feature-weight clamping ----

/-- C7 counterexample: the claim says every feature weight lies in
[0.05, 0.95] after every update of either kind.  Starting from the
default record, twenty selection updates followed by one 24h-snapshot
success update leave the stored weight at exactly 0.05
(`min(0.95, max(0.05, 1/20))`), and the next selection update computes
`min(0.95, 0.05 * 0.99 + 0) = 0.0495 < 0.05`: `track_user_choice` has no
lower clamp. -/
theorem feature_weight_below_floor_counterexample :
    (runLearnOps initFeatStat
      (List.replicate 20 (LearnOp.track false) ++ [LearnOp.success, LearnOp.track false])).weight
      < 5/100 := by
  norm_num [runLearnOps, trackChoiceUpdate, successSnapshotUpdate, initFeatStat]

/-- C7 amended: the success update (`_update_learning_success_from_snapshot`)
always leaves the weight in [0.05, 0.95]; the selection-time update
(`track_user_choice`) only caps it at 0.95 (it keeps it non-negative,
but can drive it below 0.05, as the counterexample shows). -/
theorem feature_weight_update_bounds (d : FeatStat) (b : Bool) :
    (5/100 ≤ (successSnapshotUpdate d).weight ∧ (successSnapshotUpdate d).weight ≤ 95/100) ∧
    (trackChoiceUpdate d b).weight ≤ 95/100 ∧
    (0 ≤ d.weight → 0 ≤ (trackChoiceUpdate d b).weight) := by
  simp only [successSnapshotUpdate, trackChoiceUpdate]
  refine ⟨⟨le_min (by norm_num) (le_max_left _ _), min_le_left _ _⟩, min_le_left _ _, ?_⟩
  intro hw
  refine le_min (by norm_num) (add_nonneg (mul_nonneg hw (by norm_num)) ?_)
  cases b <;> norm_num

/-- Witness for C7's amended theorem at the default record. -/
theorem feature_weight_update_bounds_witness :
    (0:ℚ) ≤ initFeatStat.weight ∧ 0 ≤ (trackChoiceUpdate initFeatStat false).weight :=
  ⟨by norm_num [initFeatStat],
   (feature_weight_update_bounds initFeatStat false).2.2 (by norm_num [initFeatStat])⟩

-- ---- C4: score monotonicity and bounds ----

theorem tierBoost_nonneg (u : ℕ) :
    (0:ℝ) ≤ (if u = 1 then 50 else if u = 2 then 20 else 0) := by
  split
  · norm_num
  · split <;> norm_num

theorem tierBoost_anti (t t1 : ℕ) (h1 : 1 ≤ t1) (h : t1 ≤ t) :
    ((if t = 1 then 50 else if t = 2 then 20 else 0) : ℝ)
      ≤ (if t1 = 1 then 50 else if t1 = 2 then 20 else 0) := by
  by_cases e1 : t1 = 1
  · simp only [e1, if_pos rfl]
    split
    · norm_num
    · split <;> norm_num
  · by_cases e2 : t1 = 2
    · have ht2 : t ≠ 1 := by omega
      simp only [e2, if_neg e1, if_pos rfl, if_neg ht2]
      split <;> norm_num
    · have ht1 : t ≠ 1 := by omega
      have ht2 : t ≠ 2 := by omega
      simp only [if_neg e1, if_neg e2, if_neg ht1, if_neg ht2, le_refl]

theorem floor_min100_mono {a b : ℝ} (h : a ≤ b) : ⌊min 100 a⌋ ≤ ⌊min 100 b⌋ :=
  Int.floor_le_floor (min_le_min le_rfl h)

/-- C4: for non-negative engagement counts and non-negative age, the
opportunity score is monotone non-decreasing in likes, retweets+reposts
and replies, monotone non-decreasing in tier priority (tier 1 highest —
a numerically smaller tier in {1,2,3} scores at least as high), and the
returned integer always lies in [0, 100]. -/
theorem score_monotone_and_bounded (t t1 l l1 r r1 p p1 : ℕ) (m : ℝ) (hm : 0 ≤ m)
    (hl : l ≤ l1) (hr : r ≤ r1) (hp : p ≤ p1) (ht1 : 1 ≤ t1) (ht : t1 ≤ t) :
    (0 ≤ _score_opportunity t l r p m ∧ _score_opportunity t l r p m ≤ 100) ∧
    _score_opportunity t l r p m ≤ _score_opportunity t l1 r p m ∧
    _score_opportunity t l r p m ≤ _score_opportunity t l r1 p m ∧
    _score_opportunity t l r p m ≤ _score_opportunity t l r p1 m ∧
    _score_opportunity t l r p m ≤ _score_opportunity t1 l r p m := by
  have sqrt_mono : ∀ a b : ℕ, a ≤ b → Real.sqrt a ≤ Real.sqrt b := by
    intro a b h
    exact Real.sqrt_le_sqrt (by exact_mod_cast h)
  have hrec : (0:ℝ) ≤ max 0 (120 - m) * 0.2 :=
    mul_nonneg (le_max_left _ _) (by norm_num)
  simp only [_score_opportunity]
  refine ⟨⟨?_, ?_⟩, ?_, ?_, ?_, ?_⟩
  · rw [Int.floor_nonneg]
    refine le_min (by norm_num) ?_
    exact add_nonneg (add_nonneg (Real.sqrt_nonneg _) hrec) (tierBoost_nonneg t)
  · calc ⌊min 100 (Real.sqrt (l * 1 + r * 2 + p * 3 : ℕ)
          + max 0 (120 - m) * 0.2 + (if t = 1 then 50 else if t = 2 then 20 else 0))⌋
        ≤ ⌊(100:ℝ)⌋ := Int.floor_le_floor (min_le_left _ _)
      _ = 100 := by norm_num
  · exact floor_min100_mono (add_le_add_right
      (add_le_add_right (sqrt_mono _ _ (by omega)) _) _)
  · exact floor_min100_mono (add_le_add_right
      (add_le_add_right (sqrt_mono _ _ (by omega)) _) _)
  · exact floor_min100_mono (add_le_add_right
      (add_le_add_right (sqrt_mono _ _ (by omega)) _) _)
  · exact floor_min100_mono (add_le_add_left (tierBoost_anti t t1 ht1 ht) _)

/-- Witness for C4, comparing tier 2 against tier 1 with unit increments
of each engagement count at age 0. -/
theorem score_monotone_and_bounded_witness :
    (0 ≤ _score_opportunity 2 0 0 0 (0:ℝ) ∧ _score_opportunity 2 0 0 0 (0:ℝ) ≤ 100) ∧
    _score_opportunity 2 0 0 0 (0:ℝ) ≤ _score_opportunity 2 1 0 0 (0:ℝ) ∧
    _score_opportunity 2 0 0 0 (0:ℝ) ≤ _score_opportunity 2 0 2 0 (0:ℝ) ∧
    _score_opportunity 2 0 0 0 (0:ℝ) ≤ _score_opportunity 2 0 0 3 (0:ℝ) ∧
    _score_opportunity 2 0 0 0 (0:ℝ) ≤ _score_opportunity 1 0 0 0 (0:ℝ) :=
  score_monotone_and_bounded 2 1 0 1 0 2 0 3 0 le_rfl (by norm_num) (by norm_num)
    (by norm_num) (by norm_num) (by norm_num)

end SparkCoach

namespace SparkCoach

-- ---- C3: shortlist contract ----

theorem mem_shortlistMerged (opps : List Cand) (c : Cand) :
    c ∈ shortlistMerged opps ↔
      c ∈ opps ∧ (c.tier = 1 ∨ (c.tier = 2 ∧ 80 ≤ c.score) ∨ (c.tier = 3 ∧ 90 ≤ c.score)) := by
  simp only [shortlistMerged, List.mem_append, List.mem_filter, Bool.and_eq_true,
    beq_iff_eq, decide_eq_true_eq]
  tauto

theorem mem_fetch_shortlist_of_merged (opps : List Cand)
    (h : (shortlistMerged opps).length ≤ 15) (c : Cand) :
    c ∈ _fetch_shortlist opps ↔ c ∈ shortlistMerged opps := by
  have hlen : ((shortlistMerged opps).insertionSort byScoreDesc).length
      = (shortlistMerged opps).length :=
    (List.perm_insertionSort byScoreDesc _).length_eq
  have htake : _fetch_shortlist opps = (shortlistMerged opps).insertionSort byScoreDesc := by
    unfold _fetch_shortlist
    exact List.take_of_length_le (by rw [hlen]; exact h)
  rw [htake]
  exact (List.perm_insertionSort byScoreDesc _).mem_iff

theorem mem_fetch_shortlist_sound (opps : List Cand) (c : Cand)
    (hc : c ∈ _fetch_shortlist opps) : c ∈ shortlistMerged opps := by
  have : c ∈ (shortlistMerged opps).insertionSort byScoreDesc :=
    List.mem_of_mem_take hc
  exact ((List.perm_insertionSort byScoreDesc _).mem_iff).mp this

/-- C3 counterexample: with sixteen tier-1 candidates the 15-entry cap
drops the lowest-scoring one, so the shortlist does not contain every
tier-1 candidate regardless of score, contrary to the claim. -/
theorem shortlist_cap_drops_tier1_counterexample :
    (⟨1, 1, "p16"⟩ : Cand) ∈ sixteenTierOne ∧ (⟨1, 1, "p16"⟩ : Cand).tier = 1 ∧
    (⟨1, 1, "p16"⟩ : Cand) ∉ _fetch_shortlist sixteenTierOne := by decide

/-- C3 amended: the returned shortlist is always sorted descending by
score, capped at 15 entries, carries dense rank indices 1..N, and every
member passed the tier filter (tier-2 only with score ≥ 80, tier-3 only
with score ≥ 90); whenever the filtered merge has at most 15 entries
(so the cap does not truncate), it contains exactly the expected
candidates: every tier-1 candidate regardless of score, a tier-2
candidate iff its score is at least 80, a tier-3 candidate iff its score
is at least 90.  The claim's concrete example — one tier-1 candidate of
score 10 and one tier-3 candidate of score 85 yield only the tier-1
candidate, ranked 1 — holds. -/
theorem shortlist_contract (opps : List Cand) :
    List.Sorted byScoreDesc (_fetch_shortlist opps) ∧
    (_fetch_shortlist opps).length ≤ 15 ∧
    ((shortlistRanked opps).map Prod.fst = List.range' 1 (_fetch_shortlist opps).length) ∧
    (∀ c ∈ _fetch_shortlist opps,
      (c.tier = 2 → 80 ≤ c.score) ∧ (c.tier = 3 → 90 ≤ c.score)) ∧
    ((shortlistMerged opps).length ≤ 15 →
      ∀ c ∈ opps,
        (c.tier = 1 → c ∈ _fetch_shortlist opps) ∧
        (c.tier = 2 → (c ∈ _fetch_shortlist opps ↔ 80 ≤ c.score)) ∧
        (c.tier = 3 → (c ∈ _fetch_shortlist opps ↔ 90 ≤ c.score))) ∧
    shortlistRanked [⟨1, 10, "a"⟩, ⟨3, 85, "b"⟩] = [(1, ⟨1, 10, "a"⟩)] := by
  refine ⟨?_, ?_, ?_, ?_, ?_, by decide⟩
  · exact List.Pairwise.sublist (List.take_sublist 15 _)
      (List.sorted_insertionSort byScoreDesc _)
  · exact List.length_take_le 15 _
  · simp only [shortlistRanked, List.map_map]
    have h1 : (Prod.fst ∘ fun p : ℕ × Cand => (p.1 + 1, p.2)) = (fun p => p.1 + 1) := rfl
    rw [h1]
    have h2 : (fun p : ℕ × Cand => p.1 + 1) = (fun i => i + 1) ∘ Prod.fst := rfl
    rw [h2, ← List.map_map, List.enum_map_fst, List.range'_eq_map_range]
    exact (List.map_congr_left fun i _ => Nat.add_comm 1 i).symm
  · intro c hc
    have hm := (mem_shortlistMerged opps c).mp (mem_fetch_shortlist_sound opps c hc)
    rcases hm.2 with h1 | h2 | h3
    · exact ⟨fun e => by omega, fun e => by omega⟩
    · exact ⟨fun _ => h2.2, fun e => by omega⟩
    · exact ⟨fun e => by omega, fun _ => h3.2⟩
  · intro h c hcm
    refine ⟨fun h1 => ?_, fun h2 => ?_, fun h3 => ?_⟩
    · exact (mem_fetch_shortlist_of_merged opps h c).mpr
        ((mem_shortlistMerged opps c).mpr ⟨hcm, Or.inl h1⟩)
    · constructor
      · intro hin
        rcases ((mem_shortlistMerged opps c).mp
          ((mem_fetch_shortlist_of_merged opps h c).mp hin)).2 with e | e | e
        · omega
        · exact e.2
        · omega
      · intro hs
        exact (mem_fetch_shortlist_of_merged opps h c).mpr
          ((mem_shortlistMerged opps c).mpr ⟨hcm, Or.inr (Or.inl ⟨h2, hs⟩)⟩)
    · constructor
      · intro hin
        rcases ((mem_shortlistMerged opps c).mp
          ((mem_fetch_shortlist_of_merged opps h c).mp hin)).2 with e | e | e
        · omega
        · omega
        · exact e.2
      · intro hs
        exact (mem_fetch_shortlist_of_merged opps h c).mpr
          ((mem_shortlistMerged opps c).mpr ⟨hcm, Or.inr (Or.inr ⟨h3, hs⟩)⟩)

/-- Witness for C3's amended theorem at the claim's own two-candidate
example. -/
theorem shortlist_contract_witness :
    (shortlistMerged [⟨1, 10, "a"⟩, ⟨3, 85, "b"⟩]).length ≤ 15 ∧
    ((⟨1, 10, "a"⟩ : Cand) ∈ _fetch_shortlist [⟨1, 10, "a"⟩, ⟨3, 85, "b"⟩]) :=
  ⟨by decide,
   (((shortlist_contract [⟨1, 10, "a"⟩, ⟨3, 85, "b"⟩]).2.2.2.2.1 (by decide)
      ⟨1, 10, "a"⟩ (by decide)).1 rfl)⟩

end SparkCoach

namespace SparkCoach

-- ---- C8: metrics sampler capture window ----

theorem foldl_append_eq_flatMap {α β : Type} (g : α → List β) :
    ∀ (l : List α) (acc : List β),
      l.foldl (fun a e => a ++ g e) acc = acc ++ l.flatMap g
  | [], acc => by simp
  | e :: l, acc => by
    simp only [List.foldl_cons, List.flatMap_cons, foldl_append_eq_flatMap g l,
      List.append_assoc]

theorem mem_background_metrics_fetch (now : ℚ) (log : List LogEv)
    (fetch : String → Option (List (String × ℤ))) (snap : Snapshot) :
    snap ∈ _background_metrics_fetch now log fetch ↔
      ∃ ev ∈ log, snap ∈ snapshotsForEvent now fetch ev := by
  unfold _background_metrics_fetch
  rw [foldl_append_eq_flatMap]
  simp [List.mem_flatMap]

theorem mem_snapshotsForEvent (now : ℚ) (fetch : String → Option (List (String × ℤ)))
    (ev : LogEv) (snap : Snapshot) :
    snap ∈ snapshotsForEvent now fetch ev ↔
      ev.type = "post" ∧ ev.tweet_id = some snap.tweet_id ∧
        ∃ posted, ev.ts = some posted ∧
          ∃ off, (off, snap.age_label) ∈ sampleIntervals ∧
            |now - posted - off| < 5 ∧ fetch snap.tweet_id = some snap.metrics := by
  unfold snapshotsForEvent
  by_cases htype : ev.type = "post"
  · simp only [htype, beq_self_eq_true, if_pos]
    cases hid : ev.tweet_id with
    | none => simp [hid]
    | some tid =>
      cases hts : ev.ts with
      | none => simp [hid, hts]
      | some posted =>
        simp only [hid, hts, List.mem_filterMap, Option.some.injEq, true_and]
        constructor
        · rintro ⟨ti, hti, hsnap⟩
          by_cases hw : |now - posted - ti.1| < 5
          · rw [if_pos hw] at hsnap
            rcases Option.map_eq_some'.mp hsnap with ⟨m, hm, hsm⟩
            subst hsm
            exact ⟨rfl, posted, rfl, ti.1, by rcases ti with ⟨a, b⟩; exact hti, hw, hm⟩
          · rw [if_neg hw] at hsnap
            exact absurd hsnap (Option.noConfusion)
        · rintro ⟨hid2, posted2, hts2, off, hoff, hw, hm⟩
          subst hts2
          subst hid2
          refine ⟨(off, snap.age_label), hoff, ?_⟩
          rw [if_pos hw, hm]
          rfl
  · have : (ev.type == "post") = false := by
      simp [htype]
    simp [this, htype]

/-- C8 amended: the sampler appends a snapshot for (content id, bucket)
exactly when the durable log holds a post event with that id whose age
`now - posted` falls within 5 minutes of the bucket's offset and the
engagement fetch returns (non-empty) data.  It never consults the
existing metrics log, so an already-present (id, bucket) snapshot does
not suppress the append. -/
theorem metrics_sampler_window_characterization (now : ℚ) (log : List LogEv)
    (fetch : String → Option (List (String × ℤ))) (snap : Snapshot) :
    snap ∈ _background_metrics_fetch now log fetch ↔
      ∃ ev ∈ log, ev.type = "post" ∧ ev.tweet_id = some snap.tweet_id ∧
        ∃ posted, ev.ts = some posted ∧
          ∃ off, (off, snap.age_label) ∈ sampleIntervals ∧
            |now - posted - off| < 5 ∧ fetch snap.tweet_id = some snap.metrics := by
  rw [mem_background_metrics_fetch]
  constructor
  · rintro ⟨ev, hev, hs⟩
    exact ⟨ev, hev, (mem_snapshotsForEvent now fetch ev snap).mp hs⟩
  · rintro ⟨ev, hev, hs⟩
    exact ⟨ev, hev, (mem_snapshotsForEvent now fetch ev snap).mpr hs⟩

/-- C8 counterexample: the claim requires the sampler to append only
when no snapshot for the (content id, bucket) pair exists in the metrics
log; but with a pre-existing ("t1", "30m") snapshot on file and a post
of age exactly 30 minutes, the sampler appends ("t1", "30m") again —
it never reads the metrics log. -/
theorem metrics_sampler_ignores_existing_log :
    ¬ ∀ snap ∈ _background_metrics_fetch 30 [⟨"post", some "t1", some 0⟩]
        (fun _ => some [("like_count", 6)]),
      (snap.tweet_id, snap.age_label) ∉ ([("t1", "30m")] : List (String × String)) := by
  intro hclaim
  have hmem : (⟨"t1", "30m", [("like_count", 6)]⟩ : Snapshot)
      ∈ _background_metrics_fetch 30 [⟨"post", some "t1", some 0⟩]
        (fun _ => some [("like_count", 6)]) := by
    rw [metrics_sampler_window_characterization]
    refine ⟨⟨"post", some "t1", some 0⟩, by simp, rfl, rfl, 0, rfl, 30, by simp [sampleIntervals], ?_, rfl⟩
    norm_num
  exact hclaim _ hmem (by simp)

end SparkCoach

namespace SparkCoach

-- ---- C9: per-minute idempotent scheduler dispatch ----

theorem tickTask_foldl_lr (clk : Clock) (t : String) :
    ∀ (ts : List String) (lr : String → Option ℕ) (d : List String),
      ((ts.foldl (tickTask clk) (lr, d)).1) t =
        if t ∈ ts ∧ should_run_task t clk.hour clk.minute clk.dow = true
            ∧ lr t ≠ some clk.bucket
        then some clk.bucket else lr t
  | [], lr, d => by simp
  | u :: ts, lr, d => by
    rw [List.foldl_cons]
    by_cases hu : u = t
    · subst hu
      by_cases hp : should_run_task u clk.hour clk.minute clk.dow = true
      · by_cases hf : lr u = some clk.bucket
        · have hbody : tickTask clk (lr, d) u = (lr, d) := by
            simp [tickTask, hp, hf]
          rw [hbody, tickTask_foldl_lr clk u ts lr d]
          by_cases hm : u ∈ ts <;> simp [hm, hp, hf]
        · have hbody : tickTask clk (lr, d) u
              = (Function.update lr u (some clk.bucket), d ++ [u]) := by
            simp [tickTask, hp, hf]
          rw [hbody, tickTask_foldl_lr clk u ts _ _]
          simp [Function.update_same, hp, hf]
      · have hbody : tickTask clk (lr, d) u = (lr, d) := by
          simp [tickTask, hp]
        rw [hbody, tickTask_foldl_lr clk u ts lr d]
        simp [hp]
    · have hne : t ≠ u := fun e => hu e.symm
      have hmem : t ∈ u :: ts ↔ t ∈ ts := by
        simp [List.mem_cons, hne]
      have hlr1 : (tickTask clk (lr, d) u).1 t = lr t := by
        unfold tickTask
        split
        · split
          · simp [Function.update_noteq hne]
          · rfl
        · rfl
      have hrec := tickTask_foldl_lr clk t ts (tickTask clk (lr, d) u).1
        (tickTask clk (lr, d) u).2
      rw [show (ts.foldl (tickTask clk) (tickTask clk (lr, d) u))
          = (ts.foldl (tickTask clk) ((tickTask clk (lr, d) u).1, (tickTask clk (lr, d) u).2))
          from by rw [Prod.mk.eta]] at hrec ⊢
      rw [hrec, hlr1]
      simp only [hmem]

theorem tickTask_foldl_count (clk : Clock) (t : String) :
    ∀ (ts : List String) (lr : String → Option ℕ) (d : List String),
      (((ts.foldl (tickTask clk) (lr, d)).2).count t) =
        d.count t + (if t ∈ ts ∧ should_run_task t clk.hour clk.minute clk.dow = true
            ∧ lr t ≠ some clk.bucket then 1 else 0)
  | [], lr, d => by simp
  | u :: ts, lr, d => by
    rw [List.foldl_cons]
    by_cases hu : u = t
    · subst hu
      by_cases hp : should_run_task u clk.hour clk.minute clk.dow = true
      · by_cases hf : lr u = some clk.bucket
        · have hbody : tickTask clk (lr, d) u = (lr, d) := by
            simp [tickTask, hp, hf]
          rw [hbody, tickTask_foldl_count clk u ts lr d]
          by_cases hm : u ∈ ts <;> simp [hm, hp, hf]
        · have hbody : tickTask clk (lr, d) u
              = (Function.update lr u (some clk.bucket), d ++ [u]) := by
            simp [tickTask, hp, hf]
          rw [hbody, tickTask_foldl_count clk u ts _ _]
          simp [Function.update_same, hp, hf, List.count_append]
      · have hbody : tickTask clk (lr, d) u = (lr, d) := by
          simp [tickTask, hp]
        rw [hbody, tickTask_foldl_count clk u ts lr d]
        simp [hp]
    · have hne : t ≠ u := fun e => hu e.symm
      have hmem : t ∈ u :: ts ↔ t ∈ ts := by
        simp [List.mem_cons, hne]
      have hlr1 : (tickTask clk (lr, d) u).1 t = lr t := by
        unfold tickTask
        split
        · split
          · simp [Function.update_noteq hne]
          · rfl
        · rfl
      have hd1 : ((tickTask clk (lr, d) u).2).count t = d.count t := by
        unfold tickTask
        split
        · split
          · simp [List.count_append, hne]
          · rfl
        · rfl
      have hrec := tickTask_foldl_count clk t ts (tickTask clk (lr, d) u).1
        (tickTask clk (lr, d) u).2
      rw [show (ts.foldl (tickTask clk) (tickTask clk (lr, d) u))
          = (ts.foldl (tickTask clk) ((tickTask clk (lr, d) u).1, (tickTask clk (lr, d) u).2))
          from by rw [Prod.mk.eta]] at hrec ⊢
      rw [hrec, hlr1, hd1]
      simp only [hmem]

theorem tickOnce_lr (clk : Clock) (lr : String → Option ℕ) (t : String) :
    (tickOnce clk lr).1 t =
      if t ∈ scheduledTasks ∧ should_run_task t clk.hour clk.minute clk.dow = true
          ∧ lr t ≠ some clk.bucket
      then some clk.bucket else lr t :=
  tickTask_foldl_lr clk t scheduledTasks lr []

theorem tickOnce_count (clk : Clock) (lr : String → Option ℕ) (t : String) :
    ((tickOnce clk lr).2).count t =
      if t ∈ scheduledTasks ∧ should_run_task t clk.hour clk.minute clk.dow = true
          ∧ lr t ≠ some clk.bucket
      then 1 else 0 := by
  have h := tickTask_foldl_count clk t scheduledTasks lr []
  simpa using h

theorem tickN_count_zero (clk : Clock) (t : String) :
    ∀ (n : ℕ) (lr : String → Option ℕ),
      (t ∉ scheduledTasks ∨ should_run_task t clk.hour clk.minute clk.dow = false
        ∨ lr t = some clk.bucket) →
      ((tickN clk n lr).2).count t = 0
  | 0, lr, _ => by simp [tickN]
  | n + 1, lr, h => by
    have hcond : ¬ (t ∈ scheduledTasks ∧ should_run_task t clk.hour clk.minute clk.dow = true
        ∧ lr t ≠ some clk.bucket) := by
      rcases h with h | h | h
      · exact fun hc => h hc.1
      · exact fun hc => by rw [hc.2.1] at h; exact Bool.noConfusion h
      · exact fun hc => hc.2.2 h
    have hlr1 : (tickOnce clk lr).1 t = lr t := by
      rw [tickOnce_lr, if_neg hcond]
    have hc1 : ((tickOnce clk lr).2).count t = 0 := by
      rw [tickOnce_count, if_neg hcond]
    have hrest : (((tickN clk n (tickOnce clk lr).1).2)).count t = 0 := by
      apply tickN_count_zero clk t n
      rcases h with h | h | h
      · exact Or.inl h
      · exact Or.inr (Or.inl h)
      · exact Or.inr (Or.inr (by rw [hlr1]; exact h))
    simp only [tickN, List.count_append, hc1, hrest]

/-- C9: for every task name and fixed wall-clock minute, running the
scheduler tick any number of times dispatches the task at most once; a
registered task whose trigger predicate holds and whose last-run bucket
differs from the current minute is dispatched on the first tick, and the
whole run still dispatches it exactly once (every further tick is a
no-op for it). -/
theorem scheduler_fires_at_most_once_per_minute (clk : Clock) (lr0 : String → Option ℕ)
    (n : ℕ) (t : String) :
    ((tickN clk n lr0).2).count t ≤ 1 ∧
    (1 ≤ n → t ∈ scheduledTasks → should_run_task t clk.hour clk.minute clk.dow = true →
      lr0 t ≠ some clk.bucket →
      t ∈ (tickOnce clk lr0).2 ∧ ((tickN clk n lr0).2).count t = 1) := by
  have key : ∀ m : ℕ, ((tickN clk (m + 1) lr0).2).count t =
      ((tickOnce clk lr0).2).count t := by
    intro m
    have hrest : ((tickN clk m (tickOnce clk lr0).1).2).count t = 0 := by
      by_cases hcond : t ∈ scheduledTasks
          ∧ should_run_task t clk.hour clk.minute clk.dow = true
          ∧ lr0 t ≠ some clk.bucket
      · apply tickN_count_zero
        refine Or.inr (Or.inr ?_)
        rw [tickOnce_lr, if_pos hcond]
      · apply tickN_count_zero
        rw [tickOnce_lr, if_neg hcond]
        by_cases h1 : t ∈ scheduledTasks
        · by_cases h2 : should_run_task t clk.hour clk.minute clk.dow = true
          · refine Or.inr (Or.inr ?_)
            by_cases h3 : lr0 t = some clk.bucket
            · exact h3
            · exact absurd ⟨h1, h2, h3⟩ hcond
          · exact Or.inr (Or.inl (Bool.eq_false_iff.mpr h2))
        · exact Or.inl h1
    simp only [tickN, List.count_append, hrest, Nat.add_zero]
  constructor
  · cases n with
    | zero => simp [tickN]
    | succ m =>
      rw [key m, tickOnce_count]
      split <;> omega
  · intro hn hmem hpred hfresh
    obtain ⟨m, rfl⟩ : ∃ m, n = m + 1 := ⟨n - 1, by omega⟩
    have hcnt : ((tickOnce clk lr0).2).count t = 1 := by
      rw [tickOnce_count, if_pos ⟨hmem, hpred, hfresh⟩]
    refine ⟨?_, by rw [key m]; exact hcnt⟩
    have : 0 < ((tickOnce clk lr0).2).count t := by omega
    exact List.count_pos_iff.mp this

/-- Witness for C9: the "suggest" task at 07:30 with a fresh last-run
map, over two ticks in the same minute. -/
theorem scheduler_fires_at_most_once_per_minute_witness :
    (1:ℕ) ≤ 2 ∧
    "suggest" ∈ (tickOnce ⟨7, 30, 0, 1000⟩ (fun _ => none)).2 ∧
    ((tickN ⟨7, 30, 0, 1000⟩ 2 (fun _ => none)).2).count "suggest" = 1 :=
  ⟨by norm_num,
   ((scheduler_fires_at_most_once_per_minute ⟨7, 30, 0, 1000⟩ (fun _ => none) 2
      "suggest").2 (by norm_num) (by decide) (by decide)
      (fun h => Option.noConfusion h)).1,
   ((scheduler_fires_at_most_once_per_minute ⟨7, 30, 0, 1000⟩ (fun _ => none) 2
      "suggest").2 (by norm_num) (by decide) (by decide)
      (fun h => Option.noConfusion h)).2⟩

end SparkCoach

namespace SparkCoach

-- ---- C5: timeout resolves to the default branch, with no publish ----

theorem wait_none_of_noSignal (expected : List (String × List String))
    (obs : ℕ → Option Msg) (h : NoSignal obs expected) :
    _wait_for_user_response expected obs = none := by
  unfold _wait_for_user_response
  suffices hgen : ∀ fuel k, waitPoll expected obs k fuel = none from hgen pollBudget 0
  intro fuel
  induction fuel with
  | zero => intro k; rfl
  | succ n ih =>
    intro k
    rw [waitPoll]
    cases hobs : obs k with
    | none => simpa using ih (k + 1)
    | some m =>
      have hf : expected.find? (fun kv => _reaction_selected m kv.2) = none := by
        apply List.find?_eq_none.mpr
        intro kv hkv
        simp [h k m hobs kv hkv]
      simp [hf, ih (k + 1)]

/-- C5: a workflow stage none of whose declared signals is observed
before the per-card timeout resolves to its configured default branch
and publishes nothing: the tweet confirm card and the reply confirm card
fall through ("skip") having posted only their card; a timed-out
three-option card publishes nothing; a timed-out draft card publishes
nothing (no `post_to_x`, no `reply_to_tweet`). -/
theorem stage_timeout_default_no_publish (te : TweetActionEnv) (re : ReplyActionEnv) :
    (NoSignal te.confirmObs confirmExpected → runTweetAction te = [Ev.slackMsg "tweet card"]) ∧
    (NoSignal te.optObs optionExpected →
      ((runTweetAction te).all fun e => !(isPublish e)) = true) ∧
    (NoSignal re.cardObs replyCardExpected → runReplyAction re = [Ev.slackMsg "reply card"]) ∧
    (NoSignal re.draftObs draftExpected →
      ((runReplyAction re).all fun e => !(isPublish e)) = true) := by
  refine ⟨?_, ?_, ?_, ?_⟩
  · intro hno
    have hw : _wait_for_user_response confirmExpected te.confirmObs = none :=
      wait_none_of_noSignal _ _ hno
    simp [runTweetAction, hw]
  · intro hno
    have hw : _wait_for_user_response optionExpected te.optObs = none :=
      wait_none_of_noSignal _ _ hno
    unfold runTweetAction
    by_cases h1 : _wait_for_user_response confirmExpected te.confirmObs = some "yes"
    · simp [h1, hw, isPublish]
    · simp [h1, isPublish]
  · intro hno
    have hw : _wait_for_user_response replyCardExpected re.cardObs = none :=
      wait_none_of_noSignal _ _ hno
    simp [runReplyAction, hw]
  · intro hno
    have hw : _wait_for_user_response draftExpected re.draftObs = none :=
      wait_none_of_noSignal _ _ hno
    unfold runReplyAction
    by_cases h1 : _wait_for_user_response replyCardExpected re.cardObs = some "yes"
    · by_cases h2 : re.genFail
      · simp [h1, h2, isPublish]
      · simp [h1, h2, hw, isPublish]
    · simp [h1, isPublish]

theorem noSignal_silent (expected : List (String × List String)) :
    NoSignal silentMsg expected := by
  intro k m hm kv hkv
  have hm2 : (⟨[]⟩ : Msg) = m := by injection hm
  subst hm2
  simp [_reaction_selected]

/-- Witness for C5 on concrete silent card streams. -/
theorem stage_timeout_default_no_publish_witness :
    runTweetAction tweetEnvSilent = [Ev.slackMsg "tweet card"] ∧
    runReplyAction replyEnvSilent = [Ev.slackMsg "reply card"] ∧
    ((runTweetAction tweetEnvSilent).all fun e => !(isPublish e)) = true :=
  ⟨(stage_timeout_default_no_publish tweetEnvSilent replyEnvSilent).1 (noSignal_silent _),
   (stage_timeout_default_no_publish tweetEnvSilent replyEnvSilent).2.2.1 (noSignal_silent _),
   (stage_timeout_default_no_publish tweetEnvSilent replyEnvSilent).2.1 (noSignal_silent _)⟩

-- ---- C6: which edit reply wins ----

/-- C6 counterexample: with two edit replies in the thread — the older
one `edit: A`, the newer one `edit: B` — the spec's "first matching
reply wins" yields payload `A`, but the source scans `edits[::-1]`
(newest first) and publishes `B`. -/
theorem edit_first_reply_counterexample :
    spec_editFromRepliesFirst replyEnvEdit.threadReplies = some "A".data ∧
    editFromReplies replyEnvEdit.threadReplies = some "B".data ∧
    publishedReplyTexts (runReplyAction replyEnvEdit) = ["B".data] ∧
    "B".data ≠ "A".data := by decide

/-- C6 amended: in the draft-with-edit stage, when the operator signals
"edit" and the thread contains at least one matching `edit:` reply, the
draft that gets published is the payload of the *last* matching reply in
thread order (the first match of the source's newest-to-oldest scan). -/
theorem edit_publishes_last_matching_reply (env : ReplyActionEnv) (t : Text)
    (h1 : _wait_for_user_response replyCardExpected env.cardObs = some "yes")
    (h2 : env.genFail = false)
    (h3 : _wait_for_user_response draftExpected env.draftObs = some "edit")
    (h4 : editFromReplies env.threadReplies = some t) :
    publishedReplyTexts (runReplyAction env) = [t] := by
  unfold runReplyAction
  simp [h1, h2, h3, h4, publishedReplyTexts]

/-- Witness for C6's amended theorem on the concrete two-edit thread. -/
theorem edit_publishes_last_matching_reply_witness :
    _wait_for_user_response replyCardExpected replyEnvEdit.cardObs = some "yes" ∧
    _wait_for_user_response draftExpected replyEnvEdit.draftObs = some "edit" ∧
    editFromReplies replyEnvEdit.threadReplies = some "B".data ∧
    publishedReplyTexts (runReplyAction replyEnvEdit) = ["B".data] :=
  ⟨by decide, by decide, by decide,
   edit_publishes_last_matching_reply replyEnvEdit "B".data (by decide) (by decide)
     (by decide) (by decide)⟩

end SparkCoach

namespace SparkCoach

-- ---- C2: budget gating of generation calls ----

theorem gatedFrom_of_all_nogen (xs : List Ev) (prev : Option Ev)
    (h : (xs.all fun e => !(isGen e)) = true) : gatedFrom prev xs = true := by
  induction xs generalizing prev with
  | nil => rfl
  | cons e rest ih =>
    rw [List.all_cons, Bool.and_eq_true] at h
    rw [gatedFrom]
    rw [h.1]
    simp [ih (some e) h.2]

theorem lastOr_cons (prev : Option Ev) (e : Ev) (xs : List Ev) :
    lastOr prev (e :: xs) = lastOr (some e) xs := rfl

theorem gatedFrom_append (xs : List Ev) :
    ∀ (prev : Option Ev) (ys : List Ev),
      gatedFrom prev (xs ++ ys)
        = (gatedFrom prev xs && gatedFrom (lastOr prev xs) ys) := by
  induction xs with
  | nil => intro prev ys; simp [gatedFrom, lastOr]
  | cons e rest ih =>
    intro prev ys
    rw [List.cons_append, gatedFrom, gatedFrom, ih (some e) ys, lastOr_cons,
      Bool.and_assoc]

theorem noGenAfterFalse_of_all_nogen (xs : List Ev)
    (h : (xs.all fun e => !(isGen e)) = true) : noGenAfterFalse xs = true := by
  induction xs with
  | nil => rfl
  | cons e rest ih =>
    rw [List.all_cons, Bool.and_eq_true] at h
    rw [noGenAfterFalse]
    rcases h with ⟨h1, h2⟩
    rw [ih h2]
    split
    · simp [h2]
    · simp

theorem noGenAfterFalse_append (xs ys : List Ev)
    (hx : noGenAfterFalse xs = true) (hy : (ys.all fun e => !(isGen e)) = true) :
    noGenAfterFalse (xs ++ ys) = true := by
  induction xs with
  | nil => exact noGenAfterFalse_of_all_nogen ys hy
  | cons e rest ih =>
    rw [noGenAfterFalse, Bool.and_eq_true] at hx
    rcases hx with ⟨h1, h2⟩
    rw [List.cons_append, noGenAfterFalse, ih h2]
    cases hk : (e == Ev.budgetCheck false) with
    | false => simp [hk]
    | true =>
      simp only [hk] at h1
      simp only [if_pos] at h1
      simp [hk, List.all_append, h1, hy]

theorem noGenAfterFalse_prefix_noFalse (xs ys : List Ev)
    (h : (xs.all fun e => !(e == Ev.budgetCheck false)) = true) :
    noGenAfterFalse (xs ++ ys) = noGenAfterFalse ys := by
  induction xs with
  | nil => rfl
  | cons e rest ih =>
    rw [List.all_cons, Bool.and_eq_true] at h
    rw [List.cons_append, noGenAfterFalse]
    have he : (e == Ev.budgetCheck false) = false := by
      rcases h with ⟨h1, _⟩
      cases hx : (e == Ev.budgetCheck false)
      · rfl
      · rw [hx] at h1; exact absurd h1 (by simp)
    rw [he]
    simp [ih h.2]

theorem falseThenMsg_of_all_noFalse (xs : List Ev)
    (h : (xs.all fun e => !(e == Ev.budgetCheck false)) = true) :
    falseThenMsg xs = true := by
  induction xs with
  | nil => rfl
  | cons e rest ih =>
    rw [List.all_cons, Bool.and_eq_true] at h
    rw [falseThenMsg]
    have he : (e == Ev.budgetCheck false) = false := by
      rcases h with ⟨h1, _⟩
      cases hx : (e == Ev.budgetCheck false)
      · rfl
      · rw [hx] at h1; exact absurd h1 (by simp)
    rw [he]
    simp [ih h.2]

theorem falseThenMsg_prefix_noFalse (xs ys : List Ev)
    (h : (xs.all fun e => !(e == Ev.budgetCheck false)) = true) :
    falseThenMsg (xs ++ ys) = falseThenMsg ys := by
  induction xs with
  | nil => rfl
  | cons e rest ih =>
    rw [List.all_cons, Bool.and_eq_true] at h
    rw [List.cons_append, falseThenMsg]
    have he : (e == Ev.budgetCheck false) = false := by
      rcases h with ⟨h1, _⟩
      cases hx : (e == Ev.budgetCheck false)
      · rfl
      · rw [hx] at h1; exact absurd h1 (by simp)
    rw [he]
    simp [ih h.2]

end SparkCoach

namespace SparkCoach

theorem scanDraftLoop_gated (cap : ℚ) (today : String) (ft : String → Option Text)
    (byIdx : ℕ → Option Opp) :
    ∀ (sel : List ℕ) (s : BudgetState) (prev : Option Ev),
      gatedFrom prev (scanDraftLoop cap today ft byIdx sel s).1 = true
  | [], s, prev => rfl
  | idx :: rest, s, prev => by
    rw [scanDraftLoop]
    cases hidx : byIdx idx with
    | none =>
      exact scanDraftLoop_gated cap today ft byIdx rest s prev
    | some o =>
      by_cases hr : (_budget_allow cap today costPerDraft s).1 = true
      · simp only [hr, if_true, if_pos]
        rw [gatedFrom, gatedFrom, gatedFrom]
        simp only [isGen, Bool.not_false, Bool.not_true, Bool.true_or, Bool.true_and]
        have := scanDraftLoop_gated cap today ft byIdx rest
          (_budget_allow cap today costPerDraft s).2 (some (Ev.slackMsg "draft"))
        simp [this]
      · simp only [Bool.not_eq_true] at hr
        simp only [hr, Bool.false_eq_true, if_false]
        rw [gatedFrom, gatedFrom, gatedFrom]
        simp [isGen]

theorem scanDraftLoop_flags (cap : ℚ) (today : String) (ft : String → Option Text)
    (byIdx : ℕ → Option Opp) :
    ∀ (sel : List ℕ) (s : BudgetState),
      noGenAfterFalse (scanDraftLoop cap today ft byIdx sel s).1 = true ∧
      falseThenMsg (scanDraftLoop cap today ft byIdx sel s).1 = true ∧
      ((scanDraftLoop cap today ft byIdx sel s).2.2 = true →
        ((scanDraftLoop cap today ft byIdx sel s).1.all
          fun e => !(e == Ev.budgetCheck false)) = true)
  | [], s => by
    refine ⟨rfl, rfl, fun _ => rfl⟩
  | idx :: rest, s => by
    rw [scanDraftLoop]
    cases hidx : byIdx idx with
    | none => exact scanDraftLoop_flags cap today ft byIdx rest s
    | some o =>
      by_cases hr : (_budget_allow cap today costPerDraft s).1 = true
      · simp only [hr, if_true, if_pos]
        have ih := scanDraftLoop_flags cap today ft byIdx rest
          (_budget_allow cap today costPerDraft s).2
        refine ⟨?_, ?_, ?_⟩
        · rw [noGenAfterFalse, noGenAfterFalse, noGenAfterFalse]
          simp [ih.1]
        · rw [falseThenMsg, falseThenMsg, falseThenMsg]
          simp [ih.2.1]
        · intro hdone
          rw [List.all_cons, List.all_cons, List.all_cons]
          simp only [Bool.and_eq_true]
          exact ⟨by simp, by simp, by simp, ih.2.2 hdone⟩
      · simp only [Bool.not_eq_true] at hr
        simp only [hr, Bool.false_eq_true, if_false]
        refine ⟨?_, ?_, ?_⟩
        · simp [noGenAfterFalse, isGen]
        · simp [falseThenMsg]
        · intro hdone
          exact absurd hdone (by simp)

theorem runTweetAction_noBudget (te : TweetActionEnv) :
    ((runTweetAction te).all fun e => !(isBudgetCheck e)) = true := by
  unfold runTweetAction
  by_cases h1 : _wait_for_user_response confirmExpected te.confirmObs = some "yes"
  · simp only [h1, if_pos]
    cases h2 : _wait_for_user_response optionExpected te.optObs with
    | none => simp [isBudgetCheck]
    | some r =>
      by_cases hr : r = "1" ∨ r = "2" ∨ r = "3"
      · simp [hr, isBudgetCheck]
      · simp [hr, isBudgetCheck]
  · simp [h1, isBudgetCheck]

theorem runReplyAction_noBudget (re : ReplyActionEnv) :
    ((runReplyAction re).all fun e => !(isBudgetCheck e)) = true := by
  unfold runReplyAction
  by_cases h1 : _wait_for_user_response replyCardExpected re.cardObs = some "yes"
  · by_cases h2 : re.genFail
    · simp [h1, h2, isBudgetCheck]
    · cases h3 : _wait_for_user_response draftExpected re.draftObs with
      | none => simp [h1, h2, h3, isBudgetCheck]
      | some r =>
        by_cases hr1 : r = "edit"
        · simp [h1, h2, h3, hr1, isBudgetCheck]
        · by_cases hr2 : r = "regen"
          · simp [h1, h2, h3, hr1, hr2, isBudgetCheck]
          · by_cases hr3 : r = "post"
            · simp [h1, h2, h3, hr1, hr2, hr3, isBudgetCheck]
            · simp [h1, h2, h3, hr1, hr2, hr3, isBudgetCheck]
  · simp [h1, isBudgetCheck]

theorem runMorningSession_noBudget (acts : List ActionEnv) :
    ((runMorningSession acts).all fun e => !(isBudgetCheck e)) = true := by
  have hacts : ∀ l : List ActionEnv,
      (((l.map runAction).flatten).all fun e => !(isBudgetCheck e)) = true := by
    intro l
    induction l with
    | nil => rfl
    | cons a rest ih =>
      rw [List.map_cons, List.flatten_cons, List.all_append]
      rw [ih]
      cases a with
      | tweet e => simp [runAction, runTweetAction_noBudget e]
      | reply e => simp [runAction, runReplyAction_noBudget e]
  show ((Ev.slackMsg "coaching header"
      :: ((acts.map runAction).flatten ++ [Ev.slackMsg "session complete"])).all
        fun e => !(isBudgetCheck e)) = true
  rw [List.all_cons, List.all_append, hacts acts]
  simp [isBudgetCheck]

end SparkCoach

namespace SparkCoach

theorem header_events_benign (os : List Opp) :
    (((Ev.slackMsg "shortlist header" :: os.map fun _ => Ev.slackMsg "shortlist line")).all
        fun e => !(isGen e)) = true ∧
    (((Ev.slackMsg "shortlist header" :: os.map fun _ => Ev.slackMsg "shortlist line")).all
        fun e => !(e == Ev.budgetCheck false)) = true := by
  constructor <;>
  · rw [List.all_eq_true]
    intro e he
    rcases List.mem_cons.mp he with rfl | hm
    · simp [isGen]
    · rcases List.mem_map.mp hm with ⟨o, _, rfl⟩
      simp [isGen]

theorem pub_events_benign (pubCmds : List (String × Text)) :
    (((pubCmds.map fun c => Ev.replyX c.1 c.2)).all fun e => !(isGen e)) = true ∧
    (((pubCmds.map fun c => Ev.replyX c.1 c.2)).all fun e => !(e == Ev.budgetCheck false)) = true := by
  constructor <;>
  · rw [List.all_eq_true]
    intro e he
    rcases List.mem_map.mp he with ⟨c, _, rfl⟩
    simp [isGen]

/-- C2 counterexample: the claim requires every workflow instance to call
`allow` immediately before each generation call.  A morning session whose
operator confirms the tweet card generates suggestions
(`generate_suggestions()` at coach.py line 702) with no budget check
anywhere in the instance: the trace contains a generation event, contains
no budget-check event at all, and hence violates the gating predicate. -/
theorem morning_generates_without_allow_counterexample :
    ((runMorningSession [ActionEnv.tweet tweetEnvYes]).any fun e => isGen e) = true ∧
    ((runMorningSession [ActionEnv.tweet tweetEnvYes]).all fun e => !(isBudgetCheck e)) = true ∧
    genImmediatelyGated (runMorningSession [ActionEnv.tweet tweetEnvYes]) = false :=
  ⟨by decide, by decide, by decide⟩

/-- C2 amended: in the opportunity-scan workflow every generation call is
immediately preceded by a successful `_budget_allow` check with the
per-draft cost, a failed check is immediately followed by the
budget-paused message, and after a failed check the instance issues no
further generation calls; the morning-session workflow, by contrast,
never consults `_budget_allow` at all (its generation calls are gated
only by operator confirmation). -/
theorem scan_gates_generation_morning_does_not :
    (∀ (cap : ℚ) (today : String) (fetchText : String → Option Text) (opps : List Opp)
        (selected : List ℕ) (s : BudgetState) (pubCmds : List (String × Text)),
      genImmediatelyGated
          (runOpportunityScan cap today fetchText opps selected s pubCmds).1 = true ∧
      noGenAfterFalse
          (runOpportunityScan cap today fetchText opps selected s pubCmds).1 = true ∧
      falseThenMsg
          (runOpportunityScan cap today fetchText opps selected s pubCmds).1 = true) ∧
    (∀ acts : List ActionEnv,
      ((runMorningSession acts).all fun e => !(isBudgetCheck e)) = true) := by
  refine ⟨?_, runMorningSession_noBudget⟩
  intro cap today fetchText opps selected s pubCmds
  unfold runOpportunityScan
  by_cases hop : opps.isEmpty
  · simp only [hop, if_pos]
    exact ⟨rfl, rfl, rfl⟩
  · simp only [hop, Bool.false_eq_true, if_false]
    by_cases hsel : selected.isEmpty
    · simp only [hsel, if_pos]
      have hh := header_events_benign opps
      exact ⟨gatedFrom_of_all_nogen _ none hh.1,
        noGenAfterFalse_of_all_nogen _ hh.1,
        falseThenMsg_of_all_noFalse _ hh.2⟩
    · simp only [hsel, Bool.false_eq_true, if_false]
      have hh := header_events_benign opps
      have hp := pub_events_benign pubCmds
      have hflags := scanDraftLoop_flags cap today fetchText
        (fun i => opps.reverse.find? fun o => o.idx == i) selected s
      have hg := scanDraftLoop_gated cap today fetchText
        (fun i => opps.reverse.find? fun o => o.idx == i) selected s
      by_cases hdone : (scanDraftLoop cap today fetchText
          (fun i => opps.reverse.find? fun o => o.idx == i) selected s).2.2 = true
      · rw [if_pos hdone]
        refine ⟨?_, ?_, ?_⟩
        · show gatedFrom none _ = true
          rw [List.append_assoc, gatedFrom_append, gatedFrom_of_all_nogen _ none hh.1,
            gatedFrom_append, hg _, gatedFrom_of_all_nogen _ _ hp.1]
          rfl
        · rw [List.append_assoc, noGenAfterFalse_prefix_noFalse _ _ hh.2]
          exact noGenAfterFalse_append _ _ hflags.1 hp.1
        · rw [List.append_assoc, falseThenMsg_prefix_noFalse _ _ hh.2,
            falseThenMsg_prefix_noFalse _ _ (hflags.2.2 hdone)]
          exact falseThenMsg_of_all_noFalse _ hp.2
      · rw [if_neg hdone]
        refine ⟨?_, ?_, ?_⟩
        · show gatedFrom none _ = true
          rw [List.append_nil, gatedFrom_append, gatedFrom_of_all_nogen _ none hh.1, hg _]
          rfl
        · rw [List.append_nil, noGenAfterFalse_prefix_noFalse _ _ hh.2]
          exact hflags.1
        · rw [List.append_nil, falseThenMsg_prefix_noFalse _ _ hh.2]
          exact hflags.2.1

end SparkCoach

namespace SparkCoach

-- ---- C1: the budget gate over a day's call sequence ----

theorem budget_allow_same_day (cap cost : ℚ) (today : String) (s : BudgetState)
    (h : s.date = some today) :
    _budget_allow cap today cost s =
      if cap < s.spend + cost then (false, s)
      else (true, { s with spend := s.spend + cost, drafts := s.drafts + 1 }) := by
  unfold _budget_allow
  rw [if_pos h]

theorem budget_allow_false_iff (cap cost : ℚ) (today : String) (s : BudgetState)
    (h : s.date = some today) :
    (_budget_allow cap today cost s).1 = false ↔ cap < s.spend + cost := by
  rw [budget_allow_same_day cap cost today s h]
  by_cases hb : cap < s.spend + cost
  · simp [hb]
  · simp [hb]

theorem budget_allow_false_state (cap cost : ℚ) (today : String) (s : BudgetState)
    (h : s.date = some today) (hb : cap < s.spend + cost) :
    _budget_allow cap today cost s = (false, s) := by
  rw [budget_allow_same_day cap cost today s h, if_pos hb]

theorem runAllow_rollover_cons (cap c : ℚ) (today : String) (cs : List ℚ)
    (s0 : BudgetState) (hs : s0.date ≠ some today) :
    runAllow cap today s0 (c :: cs) = runAllow cap today (freshBudget today) (c :: cs) := by
  have hstep : _budget_allow cap today c s0 = _budget_allow cap today c (freshBudget today) := by
    unfold _budget_allow
    rw [if_neg hs]
    simp [freshBudget]
  rw [runAllow, runAllow, hstep]

theorem runAllow_fst_rollover (cap : ℚ) (today : String) (s0 : BudgetState)
    (hs : s0.date ≠ some today) (costs : List ℚ) :
    (runAllow cap today s0 costs).1 = (runAllow cap today (freshBudget today) costs).1 := by
  cases costs with
  | nil => rfl
  | cons c cs => rw [runAllow_rollover_cons cap c today cs s0 hs]

theorem runAllow_invariant (cap : ℚ) (today : String) :
    ∀ (costs : List ℚ) (s : BudgetState), s.date = some today → (∀ c ∈ costs, 0 ≤ c) →
      ((runAllow cap today s costs).2.date = some today ∧
       s.spend ≤ (runAllow cap today s costs).2.spend ∧
       (runAllow cap today s costs).2.spend
         = s.spend + acceptedSum costs (runAllow cap today s costs).1 ∧
       (runAllow cap today s costs).2.spend ≤ max s.spend cap)
  | [], s, hd, hc => by
    refine ⟨hd, le_rfl, by simp [runAllow, acceptedSum], le_max_left _ _⟩
  | c :: cs, s, hd, hc => by
    have hc0 : 0 ≤ c := hc c (List.mem_cons_self c cs)
    have hcs : ∀ x ∈ cs, 0 ≤ x := fun x hx => hc x (List.mem_cons_of_mem c hx)
    rw [runAllow, budget_allow_same_day cap c today s hd]
    by_cases hb : cap < s.spend + c
    · rw [if_pos hb]
      have ih := runAllow_invariant cap today cs s hd hcs
      dsimp only
      rw [acceptedSum]
      refine ⟨ih.1, ih.2.1, ?_, ih.2.2.2⟩
      rw [ih.2.2.1]
      simp
    · rw [if_neg hb]
      have hd2 : ({ s with spend := s.spend + c, drafts := s.drafts + 1 } : BudgetState).date = some today := hd
      have ih := runAllow_invariant cap today cs
        { s with spend := s.spend + c, drafts := s.drafts + 1 } hd2 hcs
      dsimp only
      rw [acceptedSum]
      have hsp : s.spend ≤ s.spend + c := by linarith
      refine ⟨ih.1, le_trans hsp ih.2.1, ?_, ?_⟩
      · rw [ih.2.2.1]
        dsimp only
        simp [add_assoc]
      · have hle : s.spend + c ≤ cap := by linarith
        have := ih.2.2.2
        dsimp only at this
        calc (runAllow cap today
              { s with spend := s.spend + c, drafts := s.drafts + 1 } cs).2.spend
            ≤ max (s.spend + c) cap := this
          _ = cap := max_eq_right hle
          _ ≤ max s.spend cap := le_max_right _ _

theorem runAllow_append (cap : ℚ) (today : String) :
    ∀ (xs ys : List ℚ) (s : BudgetState),
      runAllow cap today s (xs ++ ys)
        = ((runAllow cap today s xs).1
              ++ (runAllow cap today (runAllow cap today s xs).2 ys).1,
           (runAllow cap today (runAllow cap today s xs).2 ys).2)
  | [], ys, s => by simp [runAllow]
  | x :: xs, ys, s => by
    rw [List.cons_append, runAllow, runAllow_append cap today xs ys _]
    rw [runAllow]
    simp

theorem runAllow_length (cap : ℚ) (today : String) :
    ∀ (costs : List ℚ) (s : BudgetState),
      (runAllow cap today s costs).1.length = costs.length
  | [], s => rfl
  | c :: cs, s => by
    rw [runAllow]
    simp [runAllow_length cap today cs _]

theorem getElem?_append_cons_len {α : Type} (y : α) :
    ∀ (xs zs : List α), (xs ++ y :: zs)[xs.length]? = some y
  | [], zs => by simp
  | x :: xs, zs => by
    rw [List.cons_append]
    simpa using getElem?_append_cons_len y xs zs

end SparkCoach

namespace SparkCoach

/-- C1 counterexample: cap 0.50, a fresh day, costs 0.30, 0.30, 0.10 —
all non-negative, all on the same day.  The second call returns false
(0.30 + 0.30 > 0.50) but the third, smaller cost is accepted again
(0.30 + 0.10 ≤ 0.50): once `allow` has returned false it does NOT keep
returning false for every subsequent non-negative cost that day. -/
theorem budget_false_then_true_counterexample :
    (∀ c ∈ [(3:ℚ)/10, 3/10, 1/10], 0 ≤ c) ∧
    (⟨none, 0, 0, none, []⟩ : BudgetState).date ≠ some "2025-01-02" ∧
    (runAllow (1/2) "2025-01-02" ⟨none, 0, 0, none, []⟩ [3/10, 3/10, 1/10]).1
      = [true, false, true] := by
  refine ⟨by norm_num, by simp, ?_⟩
  have e1 : _budget_allow (1/2) "2025-01-02" (3/10) ⟨none, 0, 0, none, []⟩
      = (true, ⟨some "2025-01-02", 3/10, 1, none, []⟩) := by
    simp [_budget_allow, freshBudget]; norm_num
  have e2 : _budget_allow (1/2) "2025-01-02" (3/10) ⟨some "2025-01-02", 3/10, 1, none, []⟩
      = (false, ⟨some "2025-01-02", 3/10, 1, none, []⟩) := by
    simp [_budget_allow]; norm_num
  have e3 : _budget_allow (1/2) "2025-01-02" (1/10) ⟨some "2025-01-02", 3/10, 1, none, []⟩
      = (true, ⟨some "2025-01-02", 2/5, 2, none, []⟩) := by
    simp [_budget_allow]; norm_num
  simp only [runAllow, e1, e2, e3]

/-- C1 amended: over any same-day sequence of `_budget_allow` calls with
non-negative costs, starting from a state whose stored date has rolled
over, (a) the cumulative accepted spend never exceeds the configured cap
at all — a fortiori never by more than the last accepted single cost —
and (b) once a call returns false, every subsequent call that day with a
cost at least as large also returns false (a smaller cost can still be
accepted, as the counterexample shows). -/
theorem budget_cap_and_sticky_false (cap : ℚ) (today : String) (s0 : BudgetState)
    (costs : List ℚ) (hcap : 0 ≤ cap) (hs : s0.date ≠ some today)
    (hc : ∀ c ∈ costs, 0 ≤ c) :
    acceptedSum costs (runAllow cap today s0 costs).1 ≤ cap ∧
    (∀ (cs1 : List ℚ) (c : ℚ) (cs2 : List ℚ) (c1 : ℚ) (cs3 : List ℚ),
      costs = cs1 ++ (c :: (cs2 ++ (c1 :: cs3))) → c ≤ c1 →
      (runAllow cap today s0 costs).1[cs1.length]? = some false →
      (runAllow cap today s0 costs).1[cs1.length + cs2.length + 1]? = some false) := by
  constructor
  · rw [runAllow_fst_rollover cap today s0 hs costs]
    cases costs with
    | nil => simpa [acceptedSum] using hcap
    | cons c cs =>
      have hinv := runAllow_invariant cap today (c :: cs) (freshBudget today) rfl hc
      have h1 := hinv.2.2.1
      have h2 := hinv.2.2.2
      rw [show (freshBudget today).spend = 0 from rfl] at h1 h2
      rw [zero_add] at h1
      rw [max_eq_right hcap] at h2
      rw [← h1]
      exact h2
  · intro cs1 c cs2 c1 cs3 heq hle hf
    subst heq
    have hc1 : ∀ x ∈ cs1, 0 ≤ x := fun x hx =>
      hc x (List.mem_append_left _ hx)
    have hcc : (0:ℚ) ≤ c :=
      hc c (List.mem_append_right _ (List.mem_cons_self _ _))
    have hc2 : ∀ x ∈ cs2, 0 ≤ x := fun x hx =>
      hc x (List.mem_append_right _ (List.mem_cons_of_mem _ (List.mem_append_left _ hx)))
    rw [runAllow_fst_rollover cap today s0 hs _] at hf ⊢
    rw [runAllow_append cap today cs1 (c :: (cs2 ++ (c1 :: cs3))) (freshBudget today)]
      at hf ⊢
    have hlen1 : (runAllow cap today (freshBudget today) cs1).1.length = cs1.length :=
      runAllow_length cap today cs1 _
    have hinv1 := runAllow_invariant cap today cs1 (freshBudget today) rfl hc1
    have hAdate := hinv1.1
    rw [List.getElem?_append_right (by omega)] at hf
    rw [hlen1, Nat.sub_self] at hf
    rw [runAllow] at hf
    rw [List.getElem?_cons_zero] at hf
    have hfb : (_budget_allow cap today c
        (runAllow cap today (freshBudget today) cs1).2).1 = false := by
      injection hf
    have hover : cap < (runAllow cap today (freshBudget today) cs1).2.spend + c :=
      (budget_allow_false_iff cap c today _ hAdate).mp hfb
    have hstate : _budget_allow cap today c (runAllow cap today (freshBudget today) cs1).2
        = (false, (runAllow cap today (freshBudget today) cs1).2) :=
      budget_allow_false_state cap c today _ hAdate hover
    rw [List.getElem?_append_right (by omega)]
    rw [hlen1, show cs1.length + cs2.length + 1 - cs1.length = cs2.length + 1 by omega]
    rw [runAllow, hstate]
    dsimp only
    rw [List.getElem?_cons_succ]
    rw [runAllow_append cap today cs2 (c1 :: cs3) _]
    have hlen2 : (runAllow cap today
        (runAllow cap today (freshBudget today) cs1).2 cs2).1.length = cs2.length :=
      runAllow_length cap today cs2 _
    rw [← hlen2]
    rw [runAllow]
    rw [getElem?_append_cons_len]
    have hinv2 := runAllow_invariant cap today cs2
      (runAllow cap today (freshBudget today) cs1).2 hAdate hc2
    have hBdate := hinv2.1
    have hBspend := hinv2.2.1
    have hfin : (_budget_allow cap today c1 (runAllow cap today
        (runAllow cap today (freshBudget today) cs1).2 cs2).2).1 = false := by
      rw [budget_allow_false_iff cap c1 today _ hBdate]
      linarith
    rw [hfin]

end SparkCoach

namespace SparkCoach

/-- Witness for C1's amended theorem: cap 0.50, fresh day, two calls of
cost 0.60-worth (0.6 > cap) — the first is rejected and the equal-cost
second call is rejected too; the accepted spend (zero) is within cap. -/
theorem budget_cap_and_sticky_false_witness :
    (0:ℚ) ≤ 1/2 ∧
    (⟨none, 0, 0, none, []⟩ : BudgetState).date ≠ some "2025-01-02" ∧
    acceptedSum [3/5, 3/5]
      (runAllow (1/2) "2025-01-02" ⟨none, 0, 0, none, []⟩ [3/5, 3/5]).1 ≤ 1/2 ∧
    (runAllow (1/2) "2025-01-02" ⟨none, 0, 0, none, []⟩ [3/5, 3/5]).1[1]? = some false := by
  have hthm := budget_cap_and_sticky_false (1/2) "2025-01-02" ⟨none, 0, 0, none, []⟩
    [3/5, 3/5] (by norm_num) (by simp) (by norm_num)
  have hf0 : (runAllow (1/2) "2025-01-02"
      (⟨none, 0, 0, none, []⟩ : BudgetState) [3/5, 3/5]).1[0]? = some false := by
    have e1 : _budget_allow (1/2) "2025-01-02" (3/5) (⟨none, 0, 0, none, []⟩ : BudgetState)
        = (false, ⟨some "2025-01-02", 0, 0, none, []⟩) := by
      simp [_budget_allow, freshBudget]; norm_num
    have e2 : _budget_allow (1/2) "2025-01-02" (3/5)
        (⟨some "2025-01-02", 0, 0, none, []⟩ : BudgetState)
        = (false, ⟨some "2025-01-02", 0, 0, none, []⟩) := by
      simp [_budget_allow]; norm_num
    simp only [runAllow, e1, e2]
    rw [List.getElem?_cons_zero]
  exact ⟨by norm_num, by simp, hthm.1, hthm.2 [] (3/5) [] (3/5) [] rfl le_rfl hf0⟩

end SparkCoach
